import Mathlib

/-!
Shallow embedding of the rater-agreement analysis pipeline of
`merge_results_for_comparison.py` and `coded_json_analyzer.py`: loading
per-subject automated-coding records, loading the manual-coding table,
inner-joining the two on participant identifier, computing per-dimension
agreement statistics, flagging discrepancies, and the summary conclusion.

Score values are modelled as rationals; the Python/NumPy float NaN is made
explicit with the `Val` type.  External library numerics whose results are
irrational floats (the general-case Pearson r formula, its p-value, and
square roots) are parameters of the embedding (bundled in `Ext`): every
claim under study concerns control flow, data selection and branch
structure, not the float values scipy produces, so the theorems quantify
over these functions.
-/

namespace Analysis2

/-- A float value that may be NaN (needed where Python lets NaN flow). -/
inductive Val where
  | nan : Val
  | num : ℚ → Val
deriving DecidableEq, Repr

def Val.isNan : Val → Bool
  | .nan => true
  | .num _ => false

/-- Underlying rational of a `Val` (junk value 0 for NaN). -/
def Val.toQ : Val → ℚ
  | .nan => 0
  | .num q => q

/-- External library numerics used by the pipeline: the Pearson r and
p-value computations of `scipy.stats.pearsonr` in the general
(n > 2, non-constant) case, and the square root used by `pandas.Series.std`.
The embedding is parametric in them. -/
structure Ext where
  rFun : List ℚ → List ℚ → ℚ
  pFun : List ℚ → List ℚ → ℚ
  sqrtFun : ℚ → ℚ

/-! ## Data model: rows of the loaded and merged tables -/

/-- One row of the manual-coding table produced by `load_manual_coding`
(columns renamed with the `_Manual` suffix; a missing cell is `none`).
The optional demographic passthrough columns are not modelled: no claim
touches them. -/
structure ManualRow where
  pid : String
  fluency : Option ℚ
  flexibility : Option ℚ
  elaboration : Option ℚ
  elabDensity : Option ℚ
deriving DecidableEq, Repr

/-- One row of the automated-coding table produced by
`load_claude_json_files` (the `_Claude` columns). -/
structure ClaudeRow where
  pid : String
  fluency : Option ℚ
  flexibility : Option ℚ
  elaboration : Option ℚ
  elabDensity : Option ℚ
  categories : String
deriving DecidableEq, Repr

/-- One row of the merged table produced by `merge_datasets`
(`manual_df.merge(claude_df, on='ParticipantID', how='inner')`):
the manual columns and the automated columns side by side. -/
structure MergedRow where
  manualPart : ManualRow
  claudePart : ClaudeRow
deriving DecidableEq, Repr

def MergedRow.pid (r : MergedRow) : String := r.manualPart.pid

/-- Numeric-column lookup on a merged row, by the column names the merged
DataFrame actually has.  An unknown column reads as missing; the analysis
functions only ever consult the eight columns named here. -/
def MergedRow.col (r : MergedRow) : String → Option ℚ
  | "Fluency_Manual" => r.manualPart.fluency
  | "Flexibility_Manual" => r.manualPart.flexibility
  | "Elaboration_Manual" => r.manualPart.elaboration
  | "Elaboration_Density_Manual" => r.manualPart.elabDensity
  | "Fluency_Claude" => r.claudePart.fluency
  | "Flexibility_Claude" => r.claudePart.flexibility
  | "Elaboration_Claude" => r.claudePart.elaboration
  | "ElabDensity_Claude" => r.claudePart.elabDensity
  | _ => none

/-! ## Record Loader: `load_claude_json_files` -/

/-- The fields of one parsed `*_coded.json` file that
`load_claude_json_files` reads.  A file whose JSON fails to parse, or whose
fields are so ill-typed that the per-file `try` block raises, is modelled
as `none` at the call site (both cases take the per-file `except` path). -/
structure JsonData where
  participant_id : Option String
  participantIDKey : Option String
  fluency : Option ℚ
  flexibility : Option ℚ
  elaboration_total : Option ℚ
  elaboration_density : Option ℚ
  categories_used : Option (List String)
deriving DecidableEq, Repr

/-- Python truthiness chain `a or b` for an optional string: `None` and
the empty string fall through to `b`. -/
def pyOrStr (a : Option String) (b : String) : String :=
  match a with
  | some s => if s = "" then b else s
  | none => b

/-- `participant_id.split('_')[0]`. -/
def cleanID (s : String) : String := (s.splitOn "_").headI

/-- The record built from one successfully parsed JSON file
(`merge_results_for_comparison.py`, lines 83-96).  `stem` is the file name
without extension, the fallback identifier. -/
def claudeRowOfJson (stem : String) (d : JsonData) : ClaudeRow :=
  { pid := cleanID (pyOrStr d.participant_id (pyOrStr d.participantIDKey stem))
    fluency := d.fluency
    flexibility := d.flexibility
    elaboration := d.elaboration_total
    elabDensity := d.elaboration_density
    categories :=
      match d.categories_used with
      | some l => String.intercalate "," l
      | none => "" }

/-- `load_claude_json_files`: each input is a (file stem, parse outcome)
pair.  An empty folder raises `FileNotFoundError`; otherwise every file
that parses contributes one row, every file that fails is skipped and its
stem is recorded in the per-file error list (the printed error lines),
and the loop continues. -/
def load_claude_json_files (files : List (String × Option JsonData)) :
    Except String (List ClaudeRow × List String) :=
  if files.isEmpty then
    .error "No JSON files found"
  else
    .ok (files.filterMap fun f => f.2.map fun d => claudeRowOfJson f.1 d,
         files.filterMap fun f => if f.2.isSome then none else some f.1)

/-! ## Record Loader: `coded_json_analyzer.py` -/

/-- The fields of one parsed `*_coded.json` file that
`extract_metrics_from_file` reads. -/
structure CodedJson where
  transcript_id : Option String
  fluency : Option ℚ
  flexibility : Option ℚ
  elaboration_total : Option ℚ
  elaboration_density : Option ℚ
  categories_used : List String
  unclear_audio : Option Bool
  very_short_story : Option Bool
  very_long_story : Option Bool
  unusual_structure : Option Bool
  quality_notes : String
  descriptors_in_stage_1 : List String
  descriptors_repeated_in_stage_2 : List String
  new_elaborations_in_stage_2 : List String
deriving DecidableEq, Repr

/-- The flat record `extract_metrics_from_file` builds from one file. -/
structure CodedMetrics where
  transcript_id : String
  file_name : String
  fluency : Option ℚ
  flexibility : Option ℚ
  elaboration_total : Option ℚ
  elaboration_density : Option ℚ
  categories_used : String
  unclear_audio : Option Bool
  very_short_story : Option Bool
  very_long_story : Option Bool
  unusual_structure : Option Bool
  quality_notes : String
  descriptors_in_stage_1_count : ℕ
  descriptors_repeated_in_stage_2_count : ℕ
  new_elaborations_in_stage_2 : String
  new_elaborations_count : ℕ
deriving DecidableEq, Repr

/-- `extract_metrics_from_file`: returns `none` when the file fails to
parse (the `except` branches log the error and return `None`). -/
def extract_metrics_from_file (name : String) (parsed : Option CodedJson) :
    Option CodedMetrics :=
  parsed.map fun d =>
    { transcript_id := d.transcript_id.getD "unknown"
      file_name := name
      fluency := d.fluency
      flexibility := d.flexibility
      elaboration_total := d.elaboration_total
      elaboration_density := d.elaboration_density
      categories_used := String.intercalate ", " d.categories_used
      unclear_audio := d.unclear_audio
      very_short_story := d.very_short_story
      very_long_story := d.very_long_story
      unusual_structure := d.unusual_structure
      quality_notes := d.quality_notes
      descriptors_in_stage_1_count := d.descriptors_in_stage_1.length
      descriptors_repeated_in_stage_2_count := d.descriptors_repeated_in_stage_2.length
      new_elaborations_in_stage_2 := String.intercalate ", " d.new_elaborations_in_stage_2
      new_elaborations_count := d.new_elaborations_in_stage_2.length }

/-- `collect_all_metrics`: files whose extraction returns `None` are
dropped, the rest are kept in order. -/
def collect_all_metrics (files : List (String × Option CodedJson)) :
    List CodedMetrics :=
  files.filterMap fun f => extract_metrics_from_file f.1 f.2

/-! ## Aligner: `merge_datasets` -/

/-- The observable output of `merge_datasets`: the inner-joined table and
the two one-sided subject sets it prints as warnings
(`set(manual) - set(claude)` and the reverse). -/
structure MergeOut where
  merged : List MergedRow
  manualOnly : Finset String
  claudeOnly : Finset String

/-- `merge_datasets`: pandas inner join on `ParticipantID` (one output row
per matching manual-row / automated-row pair, in left-key order), plus the
two set differences reported as warnings.  There is no duplicate-identifier
check anywhere in this function. -/
def merge_datasets (manual : List ManualRow) (claude : List ClaudeRow) : MergeOut :=
  { merged :=
      manual.flatMap fun m =>
        (claude.filter fun c => decide (c.pid = m.pid)).map fun c => ⟨m, c⟩
    manualOnly := (manual.map ManualRow.pid).toFinset \ (claude.map ClaudeRow.pid).toFinset
    claudeOnly := (claude.map ClaudeRow.pid).toFinset \ (manual.map ManualRow.pid).toFinset }

/-! ## Agreement Engine: `calculate_agreement_statistics` -/

/-- The fixed dimension list of both the Agreement Engine and the
Discrepancy Detector (`metrics = ['Fluency', 'Flexibility', 'Elaboration']`). -/
def metrics : List String := ["Fluency", "Flexibility", "Elaboration"]

/-- scipy constant-input test `(x == x[0]).all()`. -/
def isConstant (l : List ℚ) : Bool := l.all fun v => decide (v = l.headI)

/-- `np.sign`. -/
def sgn (q : ℚ) : ℚ := if 0 < q then 1 else if q < 0 then -1 else 0

/-- `scipy.stats.pearsonr`: raises `ValueError` for samples shorter
than 2; returns (NaN, NaN) with a warning when either input is constant;
returns the exact sign product with p = 1 for n = 2; otherwise computes
the float statistic and p-value (the `Ext` parameters). -/
def pearsonr (E : Ext) (x y : List ℚ) : Except String (Val × Val) :=
  if x.length ≠ y.length then
    .error "x and y must have the same length."
  else if x.length < 2 then
    .error "x and y must have length at least 2."
  else if isConstant x || isConstant y then
    .ok (.nan, .nan)
  else if x.length = 2 then
    .ok (.num (sgn (x.getD 1 0 - x.getD 0 0) * sgn (y.getD 1 0 - y.getD 0 0)), .num 1)
  else
    .ok (.num (E.rFun x y), .num (E.pFun x y))

def listMean (l : List ℚ) : ℚ := l.sum / l.length

/-- `sklearn.metrics.mean_absolute_error`. -/
def mean_absolute_error (yTrue yPred : List ℚ) : ℚ :=
  listMean (List.zipWith (fun a b => |a - b|) yTrue yPred)

/-- `pandas.Series.std` (sample standard deviation, ddof = 1); only
reached with at least 2 values, since `pearsonr` raised earlier otherwise. -/
def sampleStd (E : Ext) (l : List ℚ) : ℚ :=
  E.sqrtFun ((l.map fun d => (d - listMean l) ^ 2).sum / ((l.length : ℚ) - 1))

/-- One dimension's entry of the `results` dictionary. The optional
pingouin ICC augmentation is capability-gated in the source
(`PINGOUIN_AVAILABLE`); no claim depends on it and it is not modelled. -/
structure MetricStats where
  correlation : Val
  p_value : Val
  mae : ℚ
  mean_difference : ℚ
  std_difference : ℚ
  n : ℕ
deriving DecidableEq, Repr

/-- `merged_df[[manual_col, claude_col]].dropna()` for one metric: the
valid (manual, automated) pairs of the dimension, in row order. -/
def validData (tbl : List MergedRow) (m : String) : List (ℚ × ℚ) :=
  tbl.filterMap fun r =>
    match r.col (m ++ "_Manual"), r.col (m ++ "_Claude") with
    | some mv, some cv => some (mv, cv)
    | _, _ => none

/-- The statistics stored for one dimension (source lines 222-240),
given the valid pairs and the pearson outcome. -/
def metricEntry (E : Ext) (vd : List (ℚ × ℚ)) (c p : Val) : MetricStats :=
  let diffs := vd.map fun q => q.1 - q.2
  { correlation := c
    p_value := p
    mae := mean_absolute_error (vd.map Prod.fst) (vd.map Prod.snd)
    mean_difference := listMean diffs
    std_difference := sampleStd E diffs
    n := vd.length }

/-- The per-metric loop of `calculate_agreement_statistics`.  First output
component: the `results` dictionary in insertion order; second: the
metrics printed as "No valid data" and skipped.  An exception from
`pearsonr` is uncaught and aborts the whole function. -/
def calcStatsGo (E : Ext) (tbl : List MergedRow) :
    List String → Except String (List (String × MetricStats) × List String)
  | [] => .ok ([], [])
  | m :: rest =>
    let vd := validData tbl m
    if vd.length = 0 then
      match calcStatsGo E tbl rest with
      | .error e => .error e
      | .ok out => .ok (out.1, m :: out.2)
    else
      match pearsonr E (vd.map Prod.fst) (vd.map Prod.snd) with
      | .error e => .error e
      | .ok (c, p) =>
        match calcStatsGo E tbl rest with
        | .error e => .error e
        | .ok out => .ok ((m, metricEntry E vd c p) :: out.1, out.2)

/-- `calculate_agreement_statistics` over the fixed `metrics` list. -/
def calculate_agreement_statistics (E : Ext) (tbl : List MergedRow) :
    Except String (List (String × MetricStats) × List String) :=
  calcStatsGo E tbl metrics

/-- Dictionary access `results[metric]`. -/
def lookupStats : List (String × MetricStats) → String → Option MetricStats
  | [], _ => none
  | (k, v) :: rest, m => if k = m then some v else lookupStats rest m

/-- Python comparison `c <= v` where `v` may be NaN (NaN compares false). -/
def valGe (v : Val) (c : ℚ) : Bool :=
  match v with
  | .nan => false
  | .num q => decide (c ≤ q)

/-- Python comparison `v < c` where `v` may be NaN (NaN compares false). -/
def valLt (v : Val) (c : ℚ) : Bool :=
  match v with
  | .nan => false
  | .num q => decide (q < c)

/-- The per-dimension qualitative tier printed right after the statistics
(source lines 250-257). -/
def corrTier (v : Val) : String :=
  if valGe v (9/10) then "Excellent agreement"
  else if valGe v (8/10) then "Good agreement"
  else if valGe v (7/10) then "Acceptable agreement"
  else "Poor agreement"

/-! ## Discrepancy Detector: `analyze_discrepancies` -/

/-- One flagged (subject, dimension) pair, with the derived columns the
source adds (`Diff = manual - claude`). -/
structure DiscrepancyFlag where
  pid : String
  dimension : String
  manualValue : ℚ
  claudeValue : ℚ
  diff : ℚ
deriving DecidableEq, Repr

/-- `analyze_discrepancies`: for each metric, the rows whose absolute
difference is at least the threshold.  A row with a missing value on
either side has a NaN difference, and NaN >= threshold is false in
pandas, so it is never selected. -/
def analyze_discrepancies (tbl : List MergedRow) (threshold : ℚ) :
    List DiscrepancyFlag :=
  metrics.flatMap fun m =>
    tbl.filterMap fun r =>
      match r.col (m ++ "_Manual"), r.col (m ++ "_Claude") with
      | some mv, some cv =>
        if threshold ≤ |mv - cv| then some ⟨r.pid, m, mv, cv, mv - cv⟩ else none
      | _, _ => none

/-- The Python default argument `threshold=2`. -/
def analyze_discrepancies_default (tbl : List MergedRow) : List DiscrepancyFlag :=
  analyze_discrepancies tbl 2

/-! ## Reporter: conclusion of `generate_summary_report` -/

/-- `np.mean` over a list of float values: NaN if the list is empty or
contains a NaN. -/
def meanVal (l : List Val) : Val :=
  if l.isEmpty then .nan
  else if l.any Val.isNan then .nan
  else .num ((l.map Val.toQ).sum / l.length)

inductive Conclusion where
  | excellent
  | goodModerate
  | poor
deriving DecidableEq, Repr

/-- The overall assessment of `generate_summary_report`
(source lines 486-498), as a function of the collected per-dimension
results (dictionary values in insertion order). -/
def overall_conclusion (rs : List MetricStats) : Conclusion :=
  let avgCorr := meanVal (rs.map fun s => s.correlation)
  let avgMae := meanVal (rs.map fun s => Val.num s.mae)
  if valGe avgCorr (85/100) && valLt avgMae (3/2) then .excellent
  else if valGe avgCorr (7/10) && valLt avgMae (5/2) then .goodModerate
  else .poor

/-- Average correlation as a rational, for collections without NaN. -/
def avgCorrQ (rs : List MetricStats) : ℚ :=
  (rs.map fun s => s.correlation.toQ).sum / rs.length

/-- Average MAE as a rational. -/
def avgMaeQ (rs : List MetricStats) : ℚ :=
  (rs.map fun s => s.mae).sum / rs.length

/-! ## Concrete data used by witnesses and counterexamples -/

/-- A concrete instantiation of the external numerics (the theorems about
branch structure hold for every instantiation). -/
def E0 : Ext := ⟨fun _ _ => 0, fun _ _ => 0, fun q => q⟩

def rowP03 : MergedRow :=
  ⟨⟨"P03", some 4, some 2, some 1, some (1/5)⟩,
   ⟨"P03", some 6, some 2, some 1, some (1/5), ""⟩⟩

def tbl3 : List MergedRow := [rowP03]

def flag3 : DiscrepancyFlag := ⟨"P03", "Fluency", 4, 6, -2⟩

/-! ## Discrepancy Detector: membership characterization -/

/-- A flag is produced exactly by a row of the table and a metric of the
fixed list whose two values are present and differ by at least the
threshold. -/
theorem mem_analyze_discrepancies (tbl : List MergedRow) (T : ℚ)
    (f : DiscrepancyFlag) :
    f ∈ analyze_discrepancies tbl T ↔
      ∃ m ∈ metrics, ∃ r ∈ tbl, ∃ mv cv,
        r.col (m ++ "_Manual") = some mv ∧ r.col (m ++ "_Claude") = some cv ∧
        T ≤ |mv - cv| ∧ f = ⟨r.pid, m, mv, cv, mv - cv⟩ := by
  unfold analyze_discrepancies
  rw [List.mem_flatMap]
  constructor
  · rintro ⟨m, hm, hf⟩
    rw [List.mem_filterMap] at hf
    obtain ⟨r, hr, hf⟩ := hf
    refine ⟨m, hm, r, hr, ?_⟩
    rcases hmv : r.col (m ++ "_Manual") with _ | mv <;>
      rcases hcv : r.col (m ++ "_Claude") with _ | cv <;>
      simp only [hmv, hcv] at hf <;>
      try exact Option.noConfusion hf
    by_cases hT : T ≤ |mv - cv|
    · rw [if_pos hT] at hf
      exact ⟨mv, cv, rfl, rfl, hT, (Option.some.inj hf).symm⟩
    · rw [if_neg hT] at hf
      simp at hf
  · rintro ⟨m, hm, r, hr, mv, cv, hmv, hcv, hT, rfl⟩
    refine ⟨m, hm, ?_⟩
    rw [List.mem_filterMap]
    refine ⟨r, hr, ?_⟩
    simp only [hmv, hcv]
    rw [if_pos hT]

/-- Claim C3: for every aligned table, threshold, subject row and
dimension, a discrepancy flag is emitted iff both values are present and
the absolute difference is at least the threshold; rows with a missing
value on either side are never flagged; the recorded difference is
manual minus automated; the default threshold is 2 and the threshold is a
caller-settable parameter. -/
theorem c3_discrepancy_flag_semantics (tbl : List MergedRow) (T : ℚ) :
    (∀ f : DiscrepancyFlag,
        f ∈ analyze_discrepancies tbl T ↔
          ∃ m ∈ metrics, ∃ r ∈ tbl, ∃ mv cv,
            r.col (m ++ "_Manual") = some mv ∧ r.col (m ++ "_Claude") = some cv ∧
            T ≤ |mv - cv| ∧ f = ⟨r.pid, m, mv, cv, mv - cv⟩) ∧
    analyze_discrepancies_default tbl = analyze_discrepancies tbl 2 :=
  ⟨fun f => mem_analyze_discrepancies tbl T f, rfl⟩

theorem c3_witness :
    flag3 ∈ analyze_discrepancies tbl3 2 ∧
    analyze_discrepancies_default tbl3 = analyze_discrepancies tbl3 2 :=
  ⟨((c3_discrepancy_flag_semantics tbl3 2).1 flag3).mpr
      ⟨"Fluency", List.Mem.head _, rowP03, List.Mem.head _, 4, 6, rfl, rfl,
       by norm_num, by rw [show (4 : ℚ) - 6 = -2 by norm_num]; rfl⟩,
   (c3_discrepancy_flag_semantics tbl3 2).2⟩

/-- Claim C9: flags are antitone in the threshold: every flag emitted at
threshold T2 is also emitted at any threshold T1 below it. -/
theorem c9_threshold_monotonicity (tbl : List MergedRow) (T1 T2 : ℚ)
    (h : T1 ≤ T2) :
    ∀ f ∈ analyze_discrepancies tbl T2, f ∈ analyze_discrepancies tbl T1 := by
  intro f hf
  rw [mem_analyze_discrepancies] at hf ⊢
  obtain ⟨m, hm, r, hr, mv, cv, h1, h2, hT, rfl⟩ := hf
  exact ⟨m, hm, r, hr, mv, cv, h1, h2, le_trans h hT, rfl⟩

theorem c9_witness : flag3 ∈ analyze_discrepancies tbl3 1 :=
  c9_threshold_monotonicity tbl3 1 2 (by norm_num) flag3
    ((mem_analyze_discrepancies tbl3 2 flag3).mpr
      ⟨"Fluency", List.Mem.head _, rowP03, List.Mem.head _, 4, 6, rfl, rfl,
       by norm_num, by rw [show (4 : ℚ) - 6 = -2 by norm_num]; rfl⟩)

/-! ## Claim C1: dimensions with fewer than 2 valid pairs -/

/-- Merged table in which Fluency has exactly one valid pair while the
other two dimensions have two valid pairs each. -/
def c1RowA : MergedRow :=
  ⟨⟨"P1", some 3, some 1, some 1, none⟩, ⟨"P1", some 4, some 1, some 1, none, ""⟩⟩

def c1RowB : MergedRow :=
  ⟨⟨"P2", none, some 2, some 2, none⟩, ⟨"P2", some 5, some 2, some 2, none, ""⟩⟩

def c1OnePairTbl : List MergedRow := [c1RowA, c1RowB]

/-- Merged table in which every dimension has zero valid pairs. -/
def c1EmptyRow : MergedRow :=
  ⟨⟨"P1", none, none, none, none⟩, ⟨"P1", none, none, none, none, ""⟩⟩

def c1NoPairTbl : List MergedRow := [c1EmptyRow]

/-- Claim C1 (code bug): with zero valid pairs a dimension is indeed
reported as having no valid data and the run continues over the remaining
dimensions (second conjunct: all three dimensions end up in the
no-valid-data report).  But with exactly one valid pair, `pearsonr`
raises its sample-length ValueError, which
`calculate_agreement_statistics` does not catch: the whole statistics
step aborts (first conjunct), producing nothing for the remaining
dimensions even though Flexibility and Elaboration have two valid pairs
each in `c1OnePairTbl` — not the "unavailable, run continues" behaviour
the claim states. -/
theorem c1_single_pair_aborts_run (E : Ext) :
    calculate_agreement_statistics E c1OnePairTbl
      = .error "x and y must have length at least 2." ∧
    calculate_agreement_statistics E c1NoPairTbl
      = .ok ([], ["Fluency", "Flexibility", "Elaboration"]) :=
  ⟨rfl, rfl⟩

theorem c1_witness :
    calculate_agreement_statistics E0 c1OnePairTbl
      = .error "x and y must have length at least 2." :=
  (c1_single_pair_aborts_run E0).1

/-! ## Claim C8: per-file parse failures are isolated -/

/-- Claim C8: a file whose content fails to parse is excluded from the
loaded table, reported in the per-file error list, and loading continues:
the loaded records are exactly those of the remaining files.  This holds
in both loaders (`load_claude_json_files` and the
`collect_all_metrics` / `extract_metrics_from_file` pair); neither aborts
on a malformed record. -/
theorem c8_parse_failure_isolated
    (pre post : List (String × Option JsonData)) (b : String)
    (cpre cpost : List (String × Option CodedJson)) (cb : String) :
    (∃ recs errs,
        load_claude_json_files (pre ++ (b, none) :: post) = .ok (recs, errs) ∧
        b ∈ errs ∧
        recs = (pre ++ post).filterMap fun f => f.2.map fun d => claudeRowOfJson f.1 d) ∧
    collect_all_metrics (cpre ++ (cb, none) :: cpost)
      = collect_all_metrics (cpre ++ cpost) := by
  constructor
  · refine ⟨(pre ++ (b, none) :: post).filterMap
        (fun f => f.2.map fun d => claudeRowOfJson f.1 d),
      (pre ++ (b, none) :: post).filterMap
        (fun f => if f.2.isSome then none else some f.1), ?_, ?_, ?_⟩
    · unfold load_claude_json_files
      rw [if_neg (by simp)]
    · simp [List.filterMap_append]
    · simp [List.filterMap_append]
  · unfold collect_all_metrics
    simp [List.filterMap_append, extract_metrics_from_file]

theorem c8_witness :
    (∃ recs errs,
        load_claude_json_files [("bad", none)] = .ok (recs, errs) ∧
        "bad" ∈ errs ∧
        recs = ([] : List (String × Option JsonData)).filterMap
          fun f => f.2.map fun d => claudeRowOfJson f.1 d) ∧
    collect_all_metrics [("bad", (none : Option CodedJson))]
      = collect_all_metrics ([] ++ []) := by
  have h := c8_parse_failure_isolated [] [] "bad" [] [] "bad"
  exact ⟨h.1, h.2⟩

/-! ## Claim C10: the fixed dimension list -/

/-- The keys of the statistics dictionary and of the no-valid-data report
are drawn from the metric list the loop iterates over. -/
theorem calcStatsGo_keys (E : Ext) (tbl : List MergedRow) :
    ∀ (ms : List String) out, calcStatsGo E tbl ms = .ok out →
      (∀ p ∈ out.1, p.1 ∈ ms) ∧ (∀ x ∈ out.2, x ∈ ms) := by
  intro ms
  induction ms with
  | nil =>
    intro out h
    simp only [calcStatsGo] at h
    obtain rfl := (Except.ok.inj h)
    constructor <;> intro p hp <;> simp at hp
  | cons m rest ih =>
    intro out h
    simp only [calcStatsGo] at h
    by_cases hvd : (validData tbl m).length = 0
    · rw [if_pos hvd] at h
      cases hrec : calcStatsGo E tbl rest with
      | error e => rw [hrec] at h; simp at h
      | ok o =>
        rw [hrec] at h
        obtain rfl := (Except.ok.inj h)
        obtain ⟨ih1, ih2⟩ := ih o hrec
        constructor
        · intro p hp
          exact List.mem_cons_of_mem m (ih1 p hp)
        · intro x hx
          rcases List.mem_cons.mp hx with h1 | h2
          · exact h1 ▸ List.mem_cons_self m rest
          · exact List.mem_cons_of_mem m (ih2 x h2)
    · rw [if_neg hvd] at h
      cases hpear : pearsonr E ((validData tbl m).map Prod.fst)
          ((validData tbl m).map Prod.snd) with
      | error e => rw [hpear] at h; simp at h
      | ok cp =>
        rw [hpear] at h
        obtain ⟨c, p⟩ := cp
        cases hrec : calcStatsGo E tbl rest with
        | error e => rw [hrec] at h; simp at h
        | ok o =>
          rw [hrec] at h
          obtain rfl := (Except.ok.inj h)
          obtain ⟨ih1, ih2⟩ := ih o hrec
          constructor
          · intro q hq
            rcases List.mem_cons.mp hq with h1 | h2
            · exact h1 ▸ List.mem_cons_self m rest
            · exact List.mem_cons_of_mem m (ih1 q h2)
          · intro x hx
            exact List.mem_cons_of_mem m (ih2 x hx)

/-- Claim C10: only Fluency, Flexibility and Elaboration are ever
analyzed: the fixed metric list is exactly those three names and contains
no elaboration-density name; every discrepancy flag and every statistics
entry (and every no-valid-data report line) is for a metric of that list;
yet the loader stores the elaboration-density value it reads, and the
merged table carries both density columns. -/
theorem c10_density_loaded_never_analyzed (E : Ext) (tbl : List MergedRow)
    (T : ℚ) (res : List (String × MetricStats) × List String)
    (h : calculate_agreement_statistics E tbl = .ok res) :
    metrics = ["Fluency", "Flexibility", "Elaboration"] ∧
    "ElabDensity" ∉ metrics ∧ "Elaboration_Density" ∉ metrics ∧
    (∀ f ∈ analyze_discrepancies tbl T, f.dimension ∈ metrics) ∧
    (∀ p ∈ res.1, p.1 ∈ metrics) ∧ (∀ x ∈ res.2, x ∈ metrics) ∧
    (∀ stem d, (claudeRowOfJson stem d).elabDensity = d.elaboration_density) ∧
    (∀ r : MergedRow, r.col "ElabDensity_Claude" = r.claudePart.elabDensity ∧
        r.col "Elaboration_Density_Manual" = r.manualPart.elabDensity) := by
  obtain ⟨h1, h2⟩ := calcStatsGo_keys E tbl metrics res h
  refine ⟨rfl, by decide, by decide, ?_, h1, h2, fun stem d => rfl,
    fun r => ⟨rfl, rfl⟩⟩
  intro f hf
  rw [mem_analyze_discrepancies] at hf
  obtain ⟨m, hm, r, hr, mv, cv, _, _, _, rfl⟩ := hf
  exact hm

theorem c10_witness :
    calculate_agreement_statistics E0 ([] : List MergedRow)
      = .ok ([], ["Fluency", "Flexibility", "Elaboration"]) ∧
    "ElabDensity" ∉ metrics :=
  ⟨rfl, (c10_density_loaded_never_analyzed E0 [] 2
    ([], ["Fluency", "Flexibility", "Elaboration"]) rfl).2.1⟩

/-! ## Claim C4: inner-join cardinality -/

/-- With unique identifiers on the automated side, the rows matching a
given identifier number one or zero according to membership. -/
theorem filter_pid_length (claude : List ClaudeRow) (p : String)
    (hc : (claude.map ClaudeRow.pid).Nodup) :
    (claude.filter fun c => decide (c.pid = p)).length
      = if p ∈ claude.map ClaudeRow.pid then 1 else 0 := by
  induction claude with
  | nil => simp
  | cons c cs ih =>
    rw [List.map_cons, List.nodup_cons] at hc
    obtain ⟨hc1, hc2⟩ := hc
    rw [List.filter_cons]
    by_cases hp : c.pid = p
    · rw [if_pos (by simp [hp])]
      subst hp
      rw [List.length_cons, ih hc2, if_neg hc1]
      simp [List.mem_cons]
    · rw [if_neg (by simp [hp])]
      rw [ih hc2]
      have hne : ¬ p = c.pid := fun h => hp h.symm
      simp [List.mem_cons, hne]

/-- Length of the inner join, manual side processed row by row. -/
theorem merge_length_aux (claude : List ClaudeRow)
    (hc : (claude.map ClaudeRow.pid).Nodup) :
    ∀ manual : List ManualRow, (manual.map ManualRow.pid).Nodup →
      (manual.flatMap fun m =>
          (claude.filter fun c => decide (c.pid = m.pid)).map
            fun c => (⟨m, c⟩ : MergedRow)).length
        = ((manual.map ManualRow.pid).toFinset
            ∩ (claude.map ClaudeRow.pid).toFinset).card := by
  intro manual
  induction manual with
  | nil => intro _; simp
  | cons m ms ih =>
    intro h
    rw [List.map_cons, List.nodup_cons] at h
    obtain ⟨hm1, hm2⟩ := h
    rw [List.flatMap_cons, List.length_append, List.length_map,
        filter_pid_length claude m.pid hc, ih hm2, List.map_cons,
        List.toFinset_cons]
    by_cases hmem : m.pid ∈ claude.map ClaudeRow.pid
    · rw [if_pos hmem,
          Finset.insert_inter_of_mem (by rwa [List.mem_toFinset])]
      rw [Finset.card_insert_of_not_mem]
      · omega
      · rw [Finset.mem_inter]
        rintro ⟨ha, _⟩
        exact hm1 (List.mem_toFinset.mp ha)
    · rw [if_neg hmem,
          Finset.insert_inter_of_not_mem (by rwa [List.mem_toFinset])]
      omega

/-- Claim C4: with unique identifiers within each source, the merged
table has exactly one row per identifier in the intersection of the two
identifier sets, and the two one-sided subject sets reported as warnings
are exactly the set differences in each direction. -/
theorem c4_inner_join_cardinality (manual : List ManualRow)
    (claude : List ClaudeRow)
    (hm : (manual.map ManualRow.pid).Nodup)
    (hc : (claude.map ClaudeRow.pid).Nodup) :
    (merge_datasets manual claude).merged.length
      = ((manual.map ManualRow.pid).toFinset
          ∩ (claude.map ClaudeRow.pid).toFinset).card ∧
    (merge_datasets manual claude).manualOnly
      = (manual.map ManualRow.pid).toFinset
          \ (claude.map ClaudeRow.pid).toFinset ∧
    (merge_datasets manual claude).claudeOnly
      = (claude.map ClaudeRow.pid).toFinset
          \ (manual.map ManualRow.pid).toFinset :=
  ⟨merge_length_aux claude hc manual hm, rfl, rfl⟩

def manual4 : List ManualRow :=
  [⟨"P01", some 4, some 1, some 1, none⟩, ⟨"P03", some 4, some 2, some 1, none⟩]

def claude4 : List ClaudeRow :=
  [⟨"P02", some 5, some 2, some 2, none, ""⟩,
   ⟨"P03", some 6, some 2, some 1, none, ""⟩]

theorem c4_witness :
    (merge_datasets manual4 claude4).merged.length = 1 ∧
    (merge_datasets manual4 claude4).manualOnly = {"P01"} ∧
    (merge_datasets manual4 claude4).claudeOnly = {"P02"} := by
  obtain ⟨h1, h2, h3⟩ :=
    c4_inner_join_cardinality manual4 claude4 (by decide) (by decide)
  refine ⟨?_, ?_, ?_⟩
  · rw [h1]; decide
  · rw [h2]; decide
  · rw [h3]; decide

/-! ## Claim C5: duplicate identifiers within a source -/

def dupManualA : ManualRow := ⟨"A", some 1, some 1, some 1, none⟩

def dupManualB : ManualRow := ⟨"A", some 2, some 2, some 2, none⟩

def dupManual : List ManualRow := [dupManualA, dupManualB]

def dupClaudeC : ClaudeRow := ⟨"A", some 1, some 1, some 1, none, ""⟩

def dupClaude : List ClaudeRow := [dupClaudeC]

/-- Claim C5 counterexample: with the identifier A duplicated in the
manual source, the pipeline surfaces no data-integrity error at all: the
inner join silently joins both duplicated rows with the matching
automated row, and both one-sided warning sets — the only reporting
`merge_datasets` does — are empty. -/
theorem c5_counterexample :
    ¬ (dupManual.map ManualRow.pid).Nodup ∧
    (merge_datasets dupManual dupClaude).merged
      = [⟨dupManualA, dupClaudeC⟩, ⟨dupManualB, dupClaudeC⟩] ∧
    (merge_datasets dupManual dupClaude).manualOnly = ∅ ∧
    (merge_datasets dupManual dupClaude).claudeOnly = ∅ :=
  ⟨by decide, rfl, by decide, by decide⟩

/-- The inner join emits exactly one output row per matching
manual-row/automated-row pair: for every identifier, the number of merged
rows carrying it is the product of the two per-source counts. -/
theorem countP_merge_eq (manual : List ManualRow) (claude : List ClaudeRow)
    (p : String) :
    (merge_datasets manual claude).merged.countP
        (fun r => decide (r.pid = p))
      = manual.countP (fun m => decide (m.pid = p))
        * claude.countP (fun c => decide (c.pid = p)) := by
  show (manual.flatMap fun m =>
      (claude.filter fun c => decide (c.pid = m.pid)).map
        fun c => (⟨m, c⟩ : MergedRow)).countP (fun r => decide (r.pid = p)) = _
  induction manual with
  | nil => simp
  | cons m ms ih =>
    rw [List.flatMap_cons, List.countP_append, ih, List.countP_cons]
    by_cases hp : m.pid = p
    · have hinner : ((claude.filter fun c => decide (c.pid = m.pid)).map
          fun c => (⟨m, c⟩ : MergedRow)).countP (fun r => decide (r.pid = p))
            = claude.countP (fun c => decide (c.pid = p)) := by
        rw [List.countP_eq_length.mpr
              (by intro r hr
                  obtain ⟨c, hcmem, rfl⟩ := List.mem_map.mp hr
                  simp [MergedRow.pid, hp]),
            List.length_map, ← List.countP_eq_length_filter]
        rw [hp]
      rw [hinner, if_pos (by simp [hp])]
      ring
    · have hinner : ((claude.filter fun c => decide (c.pid = m.pid)).map
          fun c => (⟨m, c⟩ : MergedRow)).countP (fun r => decide (r.pid = p))
            = 0 := by
        rw [List.countP_eq_zero]
        intro r hr
        obtain ⟨c, hcmem, rfl⟩ := List.mem_map.mp hr
        simp [MergedRow.pid, hp]
      rw [hinner, if_neg (by simp [hp])]
      ring

/-- Claim C5 amended: the pipeline performs no duplicate-identifier
check in either source: the join emits exactly one output row per
matching manual-row/automated-row pair (first conjunct, the product
law), so an identifier duplicated in either source that matches the
other source yields at least two silently joined output rows, and it
appears in neither of the reported one-sided sets — the only reporting
the merge does. -/
theorem c5_duplicates_silently_joined (manual : List ManualRow)
    (claude : List ClaudeRow) (p : String)
    (hdup : 2 ≤ manual.countP (fun m => decide (m.pid = p)) ∨
        2 ≤ claude.countP (fun c => decide (c.pid = p)))
    (hman : ∃ m ∈ manual, m.pid = p) (hcl : ∃ c ∈ claude, c.pid = p) :
    (merge_datasets manual claude).merged.countP
        (fun r => decide (r.pid = p))
      = manual.countP (fun m => decide (m.pid = p))
        * claude.countP (fun c => decide (c.pid = p)) ∧
    2 ≤ (merge_datasets manual claude).merged.countP
        (fun r => decide (r.pid = p)) ∧
    p ∉ (merge_datasets manual claude).manualOnly ∧
    p ∉ (merge_datasets manual claude).claudeOnly := by
  obtain ⟨mw, hmw, hmwp⟩ := hman
  obtain ⟨cw, hcw, hcwp⟩ := hcl
  have hm1 : 1 ≤ manual.countP (fun m => decide (m.pid = p)) :=
    List.countP_pos_iff.mpr ⟨mw, hmw, by simp [hmwp]⟩
  have hc1 : 1 ≤ claude.countP (fun c => decide (c.pid = p)) :=
    List.countP_pos_iff.mpr ⟨cw, hcw, by simp [hcwp]⟩
  refine ⟨countP_merge_eq manual claude p, ?_, ?_, ?_⟩
  · rw [countP_merge_eq manual claude p]
    rcases hdup with h2 | h2
    · calc 2 = 2 * 1 := by omega
        _ ≤ manual.countP (fun m => decide (m.pid = p))
            * claude.countP (fun c => decide (c.pid = p)) :=
          Nat.mul_le_mul h2 hc1
    · calc 2 = 1 * 2 := by omega
        _ ≤ manual.countP (fun m => decide (m.pid = p))
            * claude.countP (fun c => decide (c.pid = p)) :=
          Nat.mul_le_mul hm1 h2
  · show p ∉ (manual.map ManualRow.pid).toFinset
        \ (claude.map ClaudeRow.pid).toFinset
    rw [Finset.mem_sdiff]
    rintro ⟨_, hB⟩
    exact hB (List.mem_toFinset.mpr
      (hcwp ▸ List.mem_map_of_mem ClaudeRow.pid hcw))
  · show p ∉ (claude.map ClaudeRow.pid).toFinset
        \ (manual.map ManualRow.pid).toFinset
    rw [Finset.mem_sdiff]
    rintro ⟨_, hA⟩
    exact hA (List.mem_toFinset.mpr
      (hmwp ▸ List.mem_map_of_mem ManualRow.pid hmw))

theorem c5_witness :
    (merge_datasets dupManual dupClaude).merged.countP
        (fun r => decide (r.pid = "A"))
      = (dupManual.countP fun m => decide (m.pid = "A"))
        * (dupClaude.countP fun c => decide (c.pid = "A")) ∧
    2 ≤ (merge_datasets dupManual dupClaude).merged.countP
        (fun r => decide (r.pid = "A")) ∧
    "A" ∉ (merge_datasets dupManual dupClaude).manualOnly ∧
    "A" ∉ (merge_datasets dupManual dupClaude).claudeOnly :=
  c5_duplicates_silently_joined dupManual dupClaude "A" (Or.inl (by decide))
    ⟨dupManualA, List.Mem.head _, rfl⟩ ⟨dupClaudeC, List.Mem.head _, rfl⟩

/-! ## Agreement Engine: column-access and valid-pair lemmas -/

theorem col_fluency_manual (r : MergedRow) :
    r.col ("Fluency" ++ "_Manual") = r.manualPart.fluency := rfl

theorem col_fluency_claude (r : MergedRow) :
    r.col ("Fluency" ++ "_Claude") = r.claudePart.fluency := rfl

theorem col_flexibility_manual (r : MergedRow) :
    r.col ("Flexibility" ++ "_Manual") = r.manualPart.flexibility := rfl

theorem col_flexibility_claude (r : MergedRow) :
    r.col ("Flexibility" ++ "_Claude") = r.claudePart.flexibility := rfl

theorem col_elaboration_manual (r : MergedRow) :
    r.col ("Elaboration" ++ "_Manual") = r.manualPart.elaboration := rfl

theorem col_elaboration_claude (r : MergedRow) :
    r.col ("Elaboration" ++ "_Claude") = r.claudePart.elaboration := rfl

theorem length_filterMap_isSome {α β : Type} (f : α → Option β) (l : List α) :
    (l.filterMap f).length = (l.filter fun a => (f a).isSome).length := by
  induction l with
  | nil => rfl
  | cons a l ih =>
    cases h : f a <;>
      simp [List.filterMap_cons, List.filter_cons, h, ih]

/-- The number of valid pairs of a dimension is the number of rows whose
two values for that dimension are both present. -/
theorem validData_length_filter (tbl : List MergedRow) (m : String) :
    (validData tbl m).length
      = (tbl.filter fun r => ((r.col (m ++ "_Manual")).isSome
          && (r.col (m ++ "_Claude")).isSome)).length := by
  unfold validData
  rw [length_filterMap_isSome]
  congr 1
  apply List.filter_congr
  intro r _
  rcases h1 : r.col (m ++ "_Manual") with _ | mv <;>
    rcases h2 : r.col (m ++ "_Claude") with _ | cv <;>
    simp [h1, h2]

/-- Whatever the statistics dictionary holds for a metric was computed by
`pearsonr` and `metricEntry` from exactly that metric's valid pairs. -/
theorem calcStatsGo_lookup (E : Ext) (tbl : List MergedRow) :
    ∀ (ms : List String) out m st, calcStatsGo E tbl ms = .ok out →
      lookupStats out.1 m = some st →
      ∃ c p, pearsonr E ((validData tbl m).map Prod.fst)
          ((validData tbl m).map Prod.snd) = .ok (c, p) ∧
        st = metricEntry E (validData tbl m) c p := by
  intro ms
  induction ms with
  | nil =>
    intro out m st h hl
    simp only [calcStatsGo] at h
    obtain rfl := Except.ok.inj h
    simp [lookupStats] at hl
  | cons m0 rest ih =>
    intro out m st h hl
    simp only [calcStatsGo] at h
    by_cases hvd : (validData tbl m0).length = 0
    · rw [if_pos hvd] at h
      cases hrec : calcStatsGo E tbl rest with
      | error e => rw [hrec] at h; simp at h
      | ok o =>
        rw [hrec] at h
        obtain rfl := Except.ok.inj h
        exact ih o m st hrec hl
    · rw [if_neg hvd] at h
      cases hpear : pearsonr E ((validData tbl m0).map Prod.fst)
          ((validData tbl m0).map Prod.snd) with
      | error e => rw [hpear] at h; simp at h
      | ok cp =>
        rw [hpear] at h
        obtain ⟨c, p⟩ := cp
        cases hrec : calcStatsGo E tbl rest with
        | error e => rw [hrec] at h; simp at h
        | ok o =>
          rw [hrec] at h
          obtain rfl := Except.ok.inj h
          simp only [lookupStats] at hl
          by_cases hm : m0 = m
          · rw [if_pos hm] at hl
            obtain rfl := Option.some.inj hl
            subst hm
            exact ⟨c, p, hpear, rfl⟩
          · rw [if_neg hm] at hl
            exact ih o m st hrec hl

/-- A metric of the iterated list with at least one valid pair gets an
entry in the dictionary whenever the loop completes. -/
theorem calcStatsGo_lookup_mem (E : Ext) (tbl : List MergedRow) :
    ∀ (ms : List String) out m, calcStatsGo E tbl ms = .ok out →
      m ∈ ms → (validData tbl m).length ≠ 0 →
      ∃ st, lookupStats out.1 m = some st := by
  intro ms
  induction ms with
  | nil =>
    intro out m _ hm
    exact absurd hm (List.not_mem_nil m)
  | cons m0 rest ih =>
    intro out m h hm hvdm
    simp only [calcStatsGo] at h
    by_cases hvd : (validData tbl m0).length = 0
    · rw [if_pos hvd] at h
      cases hrec : calcStatsGo E tbl rest with
      | error e => rw [hrec] at h; simp at h
      | ok o =>
        rw [hrec] at h
        obtain rfl := Except.ok.inj h
        rcases List.mem_cons.mp hm with rfl | hm2
        · exact absurd hvd hvdm
        · exact ih o m hrec hm2 hvdm
    · rw [if_neg hvd] at h
      cases hpear : pearsonr E ((validData tbl m0).map Prod.fst)
          ((validData tbl m0).map Prod.snd) with
      | error e => rw [hpear] at h; simp at h
      | ok cp =>
        rw [hpear] at h
        obtain ⟨c, p⟩ := cp
        cases hrec : calcStatsGo E tbl rest with
        | error e => rw [hrec] at h; simp at h
        | ok o =>
          rw [hrec] at h
          obtain rfl := Except.ok.inj h
          simp only [lookupStats]
          by_cases hm0 : m0 = m
          · rw [if_pos hm0]
            exact ⟨_, rfl⟩
          · rw [if_neg hm0]
            rcases List.mem_cons.mp hm with rfl | hm2
            · exact absurd rfl hm0
            · exact ih o m hrec hm2 hvdm

/-! ## Claim C6: pairwise-complete-case analysis -/

/-- Claim C6: the agreement statistics of a dimension are computed over
exactly the subjects whose manual and automated values for that dimension
are both present: the stored n counts exactly those rows; every stored
statistic is produced by `pearsonr` and `metricEntry` from that
dimension's valid pairs alone, so two tables agreeing on a dimension's
columns get identical statistics for it; and a row with both values
present for a dimension always contributes its pair to that dimension,
regardless of missing values in other dimensions. -/
theorem c6_pairwise_complete_case (E : Ext) (tbl : List MergedRow)
    (m : String) (res : List (String × MetricStats) × List String)
    (st : MetricStats)
    (hok : calculate_agreement_statistics E tbl = .ok res)
    (hl : lookupStats res.1 m = some st) :
    st.n = (tbl.filter fun r => ((r.col (m ++ "_Manual")).isSome
        && (r.col (m ++ "_Claude")).isSome)).length ∧
    (∃ c p, pearsonr E ((validData tbl m).map Prod.fst)
        ((validData tbl m).map Prod.snd) = .ok (c, p) ∧
      st = metricEntry E (validData tbl m) c p) ∧
    (∀ r ∈ tbl, ∀ mv cv, r.col (m ++ "_Manual") = some mv →
        r.col (m ++ "_Claude") = some cv → (mv, cv) ∈ validData tbl m) ∧
    (∀ (tbl2 : List MergedRow) res2 st2,
        calculate_agreement_statistics E tbl2 = .ok res2 →
        lookupStats res2.1 m = some st2 →
        validData tbl2 m = validData tbl m → st2 = st) := by
  obtain ⟨c, p, hpear, hst⟩ := calcStatsGo_lookup E tbl metrics res m st hok hl
  refine ⟨?_, ⟨c, p, hpear, hst⟩, ?_, ?_⟩
  · rw [hst]
    show (validData tbl m).length = _
    exact validData_length_filter tbl m
  · intro r hr mv cv hmv hcv
    unfold validData
    rw [List.mem_filterMap]
    exact ⟨r, hr, by simp only [hmv, hcv]⟩
  · intro tbl2 res2 st2 hok2 hl2 heq
    obtain ⟨c2, p2, hpear2, hst2⟩ :=
      calcStatsGo_lookup E tbl2 metrics res2 m st2 hok2 hl2
    rw [heq] at hpear2 hst2
    rw [hpear] at hpear2
    injection Except.ok.inj hpear2 with hc hp
    rw [hst, hst2, hc, hp]

/-- Three-row table for the concrete runs below: the subject Q3 is
missing its automated Flexibility value but has both Fluency values. -/
def row6a : MergedRow :=
  ⟨⟨"Q1", some 1, some 1, some 1, none⟩,
   ⟨"Q1", some 1, some 1, some 2, none, ""⟩⟩

def row6b : MergedRow :=
  ⟨⟨"Q2", some 2, some 2, some 2, none⟩,
   ⟨"Q2", some 2, some 2, some 2, none, ""⟩⟩

def row6c : MergedRow :=
  ⟨⟨"Q3", some 3, some 3, some 3, none⟩,
   ⟨"Q3", some 4, none, some 3, none, ""⟩⟩

def tbl6 : List MergedRow := [row6a, row6b, row6c]

def stF6 : MetricStats := ⟨.num 0, .num 0, 1/3, -1/3, 1/3, 3⟩

def stFl6 : MetricStats := ⟨.num 1, .num 1, 0, 0, 0, 2⟩

def stE6 : MetricStats := ⟨.num 0, .num 0, 1/3, -1/3, 1/3, 3⟩

def res6 : List (String × MetricStats) × List String :=
  ([("Fluency", stF6), ("Flexibility", stFl6), ("Elaboration", stE6)], [])

theorem hvF6 : validData tbl6 "Fluency" = [((1:ℚ),(1:ℚ)),(2,2),(3,4)] := by
  simp only [validData, tbl6, List.filterMap_cons, List.filterMap_nil,
    col_fluency_manual, col_fluency_claude, row6a, row6b, row6c]

theorem hvFl6 : validData tbl6 "Flexibility" = [((1:ℚ),(1:ℚ)),(2,2)] := by
  simp only [validData, tbl6, List.filterMap_cons, List.filterMap_nil,
    col_flexibility_manual, col_flexibility_claude, row6a, row6b, row6c]

theorem hvE6 : validData tbl6 "Elaboration" = [((1:ℚ),(2:ℚ)),(2,2),(3,3)] := by
  simp only [validData, tbl6, List.filterMap_cons, List.filterMap_nil,
    col_elaboration_manual, col_elaboration_claude, row6a, row6b, row6c]

theorem hok6 : calculate_agreement_statistics E0 tbl6 = .ok res6 := by
  show calcStatsGo E0 tbl6 ["Fluency", "Flexibility", "Elaboration"] = .ok res6
  simp only [calcStatsGo, hvF6, hvFl6, hvE6]
  norm_num [pearsonr, isConstant, sgn, metricEntry, mean_absolute_error,
    listMean, sampleStd, E0, res6, stF6, stFl6, stE6]

theorem c6_witness :
    stFl6.n = (tbl6.filter fun r =>
      ((r.col ("Flexibility" ++ "_Manual")).isSome
        && (r.col ("Flexibility" ++ "_Claude")).isSome)).length :=
  (c6_pairwise_complete_case E0 tbl6 "Flexibility" res6 stFl6 hok6 rfl).1

/-! ## Claim C2: zero variance -/

/-- A per-dimension result with a NaN correlation drives the overall
conclusion to the poor branch: the averaged correlation is NaN and every
NaN comparison is false. -/
theorem overall_conclusion_of_nan (rs : List MetricStats) (s : MetricStats)
    (hs : s ∈ rs) (hnan : s.correlation = Val.nan) :
    overall_conclusion rs = Conclusion.poor := by
  have hany : (rs.map fun t => t.correlation).any Val.isNan = true := by
    rw [List.any_eq_true]
    exact ⟨Val.nan, by rw [← hnan]; exact List.mem_map_of_mem _ hs, rfl⟩
  have hne : (rs.map fun t => t.correlation).isEmpty = false := by
    rcases rs with _ | ⟨a, l⟩
    · exact absurd hs (List.not_mem_nil s)
    · simp
  simp [overall_conclusion, meanVal, hne, hany, valGe]

/-- Claim C2 amended: every dimension whose valid pairs have zero
variance on either side does not crash the statistics (pearsonr returns
NaN, NaN), but no "undefined" report is produced: the NaN correlation
and p-value are stored in that dimension's results entry, the
qualitative tier computed from them is "Poor agreement", and any result
collection containing the entry drives the overall report conclusion to
the poor branch. -/
theorem c2_zero_variance_nan_propagates (E : Ext) (tbl : List MergedRow)
    (m : String) (res : List (String × MetricStats) × List String)
    (hm : m ∈ metrics)
    (hok : calculate_agreement_statistics E tbl = .ok res)
    (hlen : 2 ≤ (validData tbl m).length)
    (hconst : isConstant ((validData tbl m).map Prod.fst) = true ∨
        isConstant ((validData tbl m).map Prod.snd) = true) :
    ∃ st, lookupStats res.1 m = some st ∧
      st.correlation = Val.nan ∧ st.p_value = Val.nan ∧
      corrTier st.correlation = "Poor agreement" ∧
      ∀ rs : List MetricStats, st ∈ rs →
        overall_conclusion rs = Conclusion.poor := by
  obtain ⟨st, hl⟩ := calcStatsGo_lookup_mem E tbl metrics res m hok hm (by omega)
  obtain ⟨c, p, hpear, hst⟩ :=
    calcStatsGo_lookup E tbl metrics res m st hok hl
  have hp : pearsonr E ((validData tbl m).map Prod.fst)
      ((validData tbl m).map Prod.snd) = .ok (.nan, .nan) := by
    unfold pearsonr
    rw [if_neg (by simp), if_neg (by simp; omega),
        if_pos (by rcases hconst with h | h <;> simp [h])]
  rw [hp] at hpear
  injection Except.ok.inj hpear with hc hpv
  have hcorr : st.correlation = Val.nan := by rw [hst, ← hc]; rfl
  refine ⟨st, hl, hcorr, ?_, ?_, ?_⟩
  · rw [hst, ← hpv]; rfl
  · rw [hcorr]; rfl
  · intro rs hmem
    exact overall_conclusion_of_nan rs st hmem hcorr

/-- Two-row table whose Fluency manual values are constant and whose
Elaboration automated values are constant (zero variance on the manual
side and on the automated side respectively), while Flexibility is
non-degenerate. -/
def zvRowA : MergedRow :=
  ⟨⟨"Z1", some 5, some 1, some 1, none⟩,
   ⟨"Z1", some 5, some 1, some 2, none, ""⟩⟩

def zvRowB : MergedRow :=
  ⟨⟨"Z2", some 5, some 2, some 2, none⟩,
   ⟨"Z2", some 3, some 2, some 2, none, ""⟩⟩

def zvTbl : List MergedRow := [zvRowA, zvRowB]

def stF2 : MetricStats := ⟨.nan, .nan, 1, 1, 2, 2⟩

def stFl2 : MetricStats := ⟨.num 1, .num 1, 0, 0, 0, 2⟩

def stE2 : MetricStats := ⟨.nan, .nan, 1/2, -1/2, 1/2, 2⟩

def zvRes : List (String × MetricStats) × List String :=
  ([("Fluency", stF2), ("Flexibility", stFl2), ("Elaboration", stE2)], [])

theorem hvzF : validData zvTbl "Fluency" = [((5:ℚ),(5:ℚ)),(5,3)] := by
  simp only [validData, zvTbl, List.filterMap_cons, List.filterMap_nil,
    col_fluency_manual, col_fluency_claude, zvRowA, zvRowB]

theorem hvzFl : validData zvTbl "Flexibility" = [((1:ℚ),(1:ℚ)),(2,2)] := by
  simp only [validData, zvTbl, List.filterMap_cons, List.filterMap_nil,
    col_flexibility_manual, col_flexibility_claude, zvRowA, zvRowB]

theorem hvzE : validData zvTbl "Elaboration" = [((1:ℚ),(2:ℚ)),(2,2)] := by
  simp only [validData, zvTbl, List.filterMap_cons, List.filterMap_nil,
    col_elaboration_manual, col_elaboration_claude, zvRowA, zvRowB]

theorem hokzv : calculate_agreement_statistics E0 zvTbl = .ok zvRes := by
  show calcStatsGo E0 zvTbl ["Fluency", "Flexibility", "Elaboration"] = .ok zvRes
  simp only [calcStatsGo, hvzF, hvzFl, hvzE]
  norm_num [pearsonr, isConstant, sgn, metricEntry, mean_absolute_error,
    listMean, sampleStd, E0, zvRes, stF2, stFl2, stE2]

/-- Claim C2 counterexample: on a concrete table with zero variance in
the manual Fluency values and in the automated Elaboration values,
nothing crashes, but nothing reports "undefined" either: the stored
correlations of both degenerate dimensions are the NaN value itself,
their qualitative tier prints as "Poor agreement", and the report
conclusion computed from the results is the poor branch — the NaN
propagated silently, contrary to the claim. -/
theorem c2_counterexample :
    calculate_agreement_statistics E0 zvTbl = .ok zvRes ∧
    lookupStats zvRes.1 "Fluency" = some stF2 ∧
    stF2.correlation = Val.nan ∧
    lookupStats zvRes.1 "Elaboration" = some stE2 ∧
    stE2.correlation = Val.nan ∧
    corrTier stF2.correlation = "Poor agreement" ∧
    corrTier stE2.correlation = "Poor agreement" ∧
    overall_conclusion (zvRes.1.map Prod.snd) = Conclusion.poor :=
  ⟨hokzv, rfl, rfl, rfl, rfl, rfl, rfl, rfl⟩

theorem c2_witness :
    lookupStats zvRes.1 "Elaboration" = some stE2 ∧
    stE2.correlation = Val.nan ∧
    overall_conclusion [stE2] = Conclusion.poor := by
  obtain ⟨st, h1, h2, h3, h4, h5⟩ :=
    c2_zero_variance_nan_propagates E0 zvTbl "Elaboration" zvRes (by decide)
      hokzv (by rw [hvzE]; norm_num)
      (Or.inr (by rw [hvzE]; rfl))
  have hst : st = stE2 :=
    Option.some.inj
      (h1.symm.trans (rfl : lookupStats zvRes.1 "Elaboration" = some stE2))
  exact ⟨hst ▸ h1, hst ▸ h2, h5 [stE2] (by rw [hst]; exact List.Mem.head _)⟩

/-! ## Claim C7: the overall conclusion thresholds -/

theorem meanVal_eq_num (l : List Val) (hne : l ≠ [])
    (hn : ∀ v ∈ l, v ≠ Val.nan) :
    meanVal l = Val.num ((l.map Val.toQ).sum / l.length) := by
  unfold meanVal
  rw [if_neg (show ¬ l.isEmpty = true by simpa using hne),
      if_neg (show ¬ (l.any Val.isNan) = true by
        intro hany
        obtain ⟨v, hv, hnan⟩ := List.any_eq_true.mp hany
        cases v with
        | nan => exact hn _ hv rfl
        | num q => simp [Val.isNan] at hnan)]

/-- Claim C7: the overall conclusion is a pure function of the collected
per-dimension results, branching exactly on the stated thresholds for the
average correlation and the average MAE (stated here for collections
whose correlations are all numeric, where the averages are the rational
means). -/
theorem c7_conclusion_thresholds (rs : List MetricStats) (hne : rs ≠ [])
    (hnum : ∀ s ∈ rs, s.correlation ≠ Val.nan) :
    (overall_conclusion rs = Conclusion.excellent ↔
        (85/100 ≤ avgCorrQ rs ∧ avgMaeQ rs < 3/2)) ∧
    (overall_conclusion rs = Conclusion.goodModerate ↔
        (¬(85/100 ≤ avgCorrQ rs ∧ avgMaeQ rs < 3/2) ∧
         (7/10 ≤ avgCorrQ rs ∧ avgMaeQ rs < 5/2))) ∧
    (overall_conclusion rs = Conclusion.poor ↔
        (¬(85/100 ≤ avgCorrQ rs ∧ avgMaeQ rs < 3/2) ∧
         ¬(7/10 ≤ avgCorrQ rs ∧ avgMaeQ rs < 5/2))) := by
  have h1 : meanVal (rs.map fun s => s.correlation) = Val.num (avgCorrQ rs) := by
    rw [meanVal_eq_num _ (by simpa using hne)
      (by intro v hv
          obtain ⟨s, hs, rfl⟩ := List.mem_map.mp hv
          exact hnum s hs)]
    unfold avgCorrQ
    rw [List.map_map, List.length_map]
    rfl
  have h2 : meanVal (rs.map fun s => Val.num s.mae) = Val.num (avgMaeQ rs) := by
    rw [meanVal_eq_num _ (by simpa using hne)
      (by intro v hv
          obtain ⟨s, hs, rfl⟩ := List.mem_map.mp hv
          simp)]
    unfold avgMaeQ
    rw [List.map_map, List.length_map]
    rfl
  simp only [overall_conclusion]
  rw [h1, h2]
  simp only [valGe, valLt]
  by_cases hA : (85/100 : ℚ) ≤ avgCorrQ rs <;>
    by_cases hB : avgMaeQ rs < 3/2 <;>
    by_cases hC : (7/10 : ℚ) ≤ avgCorrQ rs <;>
    by_cases hD : avgMaeQ rs < 5/2 <;>
    simp [hA, hB, hC, hD]

theorem c7_witness : overall_conclusion [stFl6] = Conclusion.excellent :=
  ((c7_conclusion_thresholds [stFl6] (by simp)
    (by intro s hs
        rw [List.mem_singleton] at hs
        rw [hs]
        simp [stFl6])).1).mpr
    ⟨by norm_num [avgCorrQ, stFl6, Val.toQ], by norm_num [avgMaeQ, stFl6]⟩

end Analysis2
